import Mathlib

/-!
MediaCorr — verification of the core components.

Shallow embedding of the MediaCorr pipeline's core components and proofs
about them:

* the deterministic work partitioner `split_work` (three textual variants in
  `backend/app/correlator.py`, `backend/app/filter.py`, `backend/app/sources.py`);
* the job-spec builder `base_job` (`backend/api/kube/manifests.py`);
* the job lifecycle controller `run_job` / `wait_until_job_deleted`
  (`backend/api/kube/jobs.py`);
* the causality analysis engine `lagged_correlation` / `granger_test`
  (`backend/app/utils/causality.py`).

Machine integers are modelled as `Nat` (all quantities involved — indices,
worker counts, timeouts, observation counts — are non-negative in every
execution the claims quantify over).  External library calls (pandas
`Series.corr`, statsmodels `grangercausalitytests`, Python `int()` parsing)
are modelled as opaque function parameters.
-/

namespace MediaCorr

/-! ## Work partitioner — definitions

`backend/app/correlator.py` lines 18–19 (identical text in
`backend/app/filter.py` lines 12–13):

```python
def split_work(items, index, total):
    return [item for i, item in enumerate(items) if i % total == index]
```

`backend/app/sources.py` lines 40–44:

```python
def split_work(items, index, total):
    return items[index::total]
```
-/

/-- The comprehension body of `split_work` in `correlator.py`:
`[item for i, item in enumerate(items) if i % total == index]`.
Defined for `total ≥ 1`; the Python expression `i % 0` raises
`ZeroDivisionError`, which `split_work_checked` below accounts for. -/
def split_work (items : List α) (index total : Nat) : List α :=
  (items.enum.filter (fun p => p.1 % total = index)).map Prod.snd

/-- The identical comprehension as written in `filter.py` lines 12–13. -/
def split_work_filterpy (items : List α) (index total : Nat) : List α :=
  (items.enum.filter (fun p => p.1 % total = index)).map Prod.snd

/-- Faults a Python execution of `split_work` can raise. -/
inductive PyFault where
  | zeroDivision
deriving DecidableEq, Repr

/-- Python error semantics of `split_work` made explicit: when
`total = 0` the comprehension evaluates `i % 0` at the first item and raises
`ZeroDivisionError` (an empty `items` never evaluates the guard, so it
returns `[]`); there is no other failure, and in particular no validation of
`(index, total)` is performed. -/
def split_work_checked (items : List α) (index total : Nat) :
    Except PyFault (List α) :=
  if total = 0 ∧ items.isEmpty = false then .error .zeroDivision
  else .ok (split_work items index total)

/-- Python slicing `items[start::step]` for `step ≥ 1`: the elements at
positions `start, start + step, start + 2*step, …`.  `everyNth xs step`
takes the head, skips `step - 1` elements, and repeats. -/
def everyNth : List α → Nat → List α
  | [], _ => []
  | x :: xs, step => x :: everyNth (xs.drop (step - 1)) step
termination_by xs _ => xs.length
decreasing_by
  simp only [List.length_cons, List.length_drop]
  omega

/-- The stride variant of `split_work` in `sources.py` lines 40–44:
`items[index::total]` (meaningful for `total ≥ 1`; Python raises
`ValueError` on slice step 0, outside every claim's precondition). -/
def split_work_sources (items : List α) (index total : Nat) : List α :=
  everyNth (items.drop index) total

/-- The enumerated pairs a worker keeps before projecting the items out:
`[(i, item) for i, item in enumerate(items) if i % total == index]`. -/
def ownedPairs (items : List α) (index total : Nat) : List (Nat × α) :=
  items.enum.filter (fun p => p.1 % total = index)

/-- Generalisation of `split_work` over the position the enumeration starts at;
`split_work items index total = gSplit 0 items index total`.  Used to set up
the inductions. -/
def gSplit (k : Nat) (items : List α) (index total : Nat) : List α :=
  ((items.enumFrom k).filter (fun p => p.1 % total = index)).map Prod.snd

/-! ## Job lifecycle controller — definitions

`backend/api/kube/jobs.py`:

```python
def wait_until_job_deleted(batch, job_name, timeout=30):
    start = time.time()
    while True:
        try:
            batch.read_namespaced_job(job_name, NAMESPACE)
        except client.exceptions.ApiException as e:
            if e.status == 404:
                return  # ya no existe
            raise
        if time.time() - start > timeout:
            raise RuntimeError(...)
        time.sleep(1)

def run_job(job_name, job_manifest):
    batch = get_batch_client()
    try:
        batch.create_namespaced_job(...)
        return {"status": "created", "job": job_name}
    except client.exceptions.ApiException as e:
        if e.status != 409:
            raise
        batch.delete_namespaced_job(..., propagation_policy="Foreground")
        wait_until_job_deleted(batch, job_name)
        batch.create_namespaced_job(...)
        return {"status": "restarted", "job": job_name}
```

The scheduler is modelled as an oracle: the response to the first create
call, the response of the `n`-th read poll, and the response to the second
create call.  Time is measured in sleep units: the loop body runs its `n`-th
read after `n` unit sleeps, so `time.time() - start` at that read is `n`. -/

/-- Response of `read_namespaced_job`: success, 404, or another API error. -/
inductive ReadResp where
  | found
  | notFound
  | apiError (code : Nat)
deriving DecidableEq, Repr

/-- Response of `create_namespaced_job`: success, 409 conflict, or another
API error. -/
inductive CreateResp where
  | ok
  | conflict
  | apiError (code : Nat)
deriving DecidableEq, Repr

/-- Faults `run_job` / `wait_until_job_deleted` can propagate. -/
inductive JobFault where
  | deletionTimeout
  | api (code : Nat)
deriving DecidableEq, Repr

/-- The status tag `run_job` reports.  `alreadyExists` is the tag the spec's
plain (recovery-free) submit would report; it is part of the observable
status vocabulary but, as `claim_C3_counterexample` shows, never produced. -/
inductive JobOutcome where
  | created
  | restarted
  | alreadyExists
deriving DecidableEq, Repr

/-- Calls `run_job` issues against the scheduler, in order.  `readJob t` is
the deletion poll performed `t` unit sleeps after the delete call. -/
inductive KubeAction where
  | createJob
  | deleteJob (policy : String)
  | readJob (t : Nat)
deriving DecidableEq, Repr

/-- Scheduler oracle for one `run_job` invocation. -/
structure Sched where
  create1 : CreateResp
  readAt : Nat → ReadResp
  create2 : CreateResp

/-- The poll loop of `wait_until_job_deleted`, entered at poll number `n`:
read; a 404 ends the wait successfully; another API error propagates;
otherwise, if more than `timeout` time units have elapsed the loop raises
the deletion-timeout fault, else it sleeps one unit and polls again.  The
result carries the poll number at which the loop ended, so that the action
trace can be reconstructed. -/
def waitFrom (readAt : Nat → ReadResp) (timeout : Nat) (n : Nat) :
    Except (JobFault × Nat) Nat :=
  match readAt n with
  | .notFound => .ok n
  | .apiError c => .error (.api c, n)
  | .found =>
    if h : timeout < n then .error (.deletionTimeout, n)
    else waitFrom readAt timeout (n + 1)
termination_by timeout + 1 - n
decreasing_by omega

/-- Entry point `wait_until_job_deleted(batch, job_name, timeout=30)`, with the default
timeout made explicit at its only call site in `run_job`. -/
def wait_until_job_deleted (readAt : Nat → ReadResp) (timeout : Nat) :
    Except (JobFault × Nat) Nat :=
  waitFrom readAt timeout 0

/-- The reads performed by a wait whose last poll is number `n`: one poll
per unit interval, at times `0, 1, …, n`. -/
def readTrace (n : Nat) : List KubeAction :=
  (List.range (n + 1)).map KubeAction.readJob

/-- Controller `run_job`: create; on 409, delete with foreground propagation, wait for
absence, create again and report `restarted`; a non-409 create fault or any
fault of the wait or of the second create propagates.  Returns the result
together with the trace of scheduler calls. -/
def run_job (s : Sched) : Except JobFault JobOutcome × List KubeAction :=
  match s.create1 with
  | .ok => (.ok .created, [.createJob])
  | .apiError c => (.error (.api c), [.createJob])
  | .conflict =>
    match wait_until_job_deleted s.readAt 30 with
    | .error (f, n) =>
      (.error f, [.createJob, .deleteJob "Foreground"] ++ readTrace n)
    | .ok n =>
      match s.create2 with
      | .ok =>
        (.ok .restarted,
          [.createJob, .deleteJob "Foreground"] ++ readTrace n ++ [.createJob])
      | .conflict =>
        (.error (.api 409),
          [.createJob, .deleteJob "Foreground"] ++ readTrace n ++ [.createJob])
      | .apiError c =>
        (.error (.api c),
          [.createJob, .deleteJob "Foreground"] ++ readTrace n ++ [.createJob])

/-- A scheduler that reports a name conflict on the first create and whose
job is observed gone at the first deletion poll. -/
def conflictSched : Sched where
  create1 := .conflict
  readAt := fun _ => .notFound
  create2 := .ok

/-- A scheduler that reports a name conflict and whose job disappears after
two occupied polls. -/
def slowSched : Sched where
  create1 := .conflict
  readAt := fun m => if m < 2 then .found else .notFound
  create2 := .ok

/-- A scheduler whose conflicting job never disappears. -/
def stuckSched : Sched where
  create1 := .conflict
  readAt := fun _ => .found
  create2 := .ok

/-! ## Job spec builder — definitions

`backend/api/kube/manifests.py`:

```python
def base_job(name, image, command, parallelism=1, env=None):
    env_vars = []
    if env:
        env_vars = [client.V1EnvVar(name=k, value=str(v)) for k, v in env.items()]
    return client.V1Job(
        metadata=client.V1ObjectMeta(name=name),
        spec=client.V1JobSpec(
            completions=parallelism,
            parallelism=parallelism,
            completion_mode="Indexed",
            backoff_limit=1,
            template=...(containers with command, env_vars, shared volume)))
```

and the worker-side reading, `backend/app/correlator.py` lines 14–15:

```python
JOB_INDEX = int(os.environ.get("JOB_COMPLETION_INDEX", "0"))
JOB_TOTAL = int(os.environ.get("JOB_COMPLETIONS", "1"))
```
-/

/-- One environment entry of a job manifest (value already stringified, as
`str(v)` does in the comprehension). -/
structure EnvVar where
  name : String
  value : String
deriving DecidableEq, Repr

/-- The fields of the `V1Job` manifest built by `base_job` that the claims
are about. -/
structure JobSpecModel where
  name : String
  image : String
  command : List String
  completions : Nat
  parallelism : Nat
  completionMode : String
  backoffLimit : Nat
  env : List EnvVar
deriving DecidableEq, Repr

/-- Builder `base_job(name, image, command, parallelism, env)`. -/
def base_job (name image : String) (command : List String)
    (parallelism : Nat) (env : List EnvVar) : JobSpecModel where
  name := name
  image := image
  command := command
  completions := parallelism
  parallelism := parallelism
  completionMode := "Indexed"
  backoffLimit := 1
  env := env

/-- Modelled from the spec: the spawning of replicas by the external
cluster scheduler is not part of src (src only builds the manifest and
reads the resulting environment).  Per the spec's job environment contract,
an Indexed job with `completions` total spawns one replica per ordinal and
communicates to each replica, through its environment, the 0-based ordinal
and the total as the two integer-valued entries `JOB_COMPLETION_INDEX` and
`JOB_COMPLETIONS`, alongside the manifest's own environment entries. -/
def spawnEnv (spec : JobSpecModel) (i : Nat) : List EnvVar :=
  spec.env ++
    [⟨"JOB_COMPLETION_INDEX", Nat.repr i⟩,
     ⟨"JOB_COMPLETIONS", Nat.repr spec.completions⟩]

/-- Modelled from the spec: the replicas the scheduler spawns for a job
spec — one per ordinal `0 … parallelism - 1`, each with its environment. -/
def spawnedReplicas (spec : JobSpecModel) : List (List EnvVar) :=
  (List.range spec.parallelism).map (spawnEnv spec)

/-- Lookup `os.environ.get(k, dflt)`. -/
def envGet (env : List EnvVar) (k : String) (dflt : String) : String :=
  match env.find? (fun e => e.name = k) with
  | some e => e.value
  | none => dflt

/-- Worker-side read `JOB_INDEX = int(os.environ.get("JOB_COMPLETION_INDEX", "0"))`;
Python's decimal parser `int` is the opaque parameter `pyInt`. -/
def jobIndexRead (pyInt : String → Nat) (env : List EnvVar) : Nat :=
  pyInt (envGet env "JOB_COMPLETION_INDEX" "0")

/-- Worker-side read `JOB_TOTAL = int(os.environ.get("JOB_COMPLETIONS", "1"))`. -/
def jobTotalRead (pyInt : String → Nat) (env : List EnvVar) : Nat :=
  pyInt (envGet env "JOB_COMPLETIONS" "1")

/-! ## Causality analysis engine — definitions

`backend/app/utils/causality.py`:

```python
def lagged_correlation(df, sentiment_col, target_col, max_lag=5):
    results = []
    for lag in range(0, max_lag + 1):
        shifted = df[sentiment_col].shift(lag)
        valid = pd.concat([shifted, df[target_col]], axis=1).dropna()
        if len(valid) < 10:
            continue
        corr = valid.iloc[:, 0].corr(valid.iloc[:, 1])
        results.append({"lag": lag, "correlation": round(corr, 4),
                        "n_obs": len(valid)})
    return pd.DataFrame(results)

def granger_test(df, sentiment_col, target_col, max_lag=5):
    data = df[[target_col, sentiment_col]].dropna()
    if len(data) < 20:
        raise ValueError("Datos insuficientes para Granger")
    test = grangercausalitytests(data, maxlag=max_lag, verbose=False)
    rows = []
    for lag, res in test.items():
        p_value = res[0]["ssr_ftest"][1]
        rows.append({"lag": lag, "p_value": round(p_value, 6),
                     "significant_5pct": p_value < 0.05})
    return pd.DataFrame(rows)
```

A dataframe row is modelled as a pair of optional rationals
`(sentiment, target)`; `none` models a missing/NaN cell.  pandas' Pearson
`Series.corr` (with the 4-decimal float rounding) and statsmodels'
`grangercausalitytests` p-values (with the 6-decimal float rounding) are
opaque function parameters: the claims concern which lags are reported and
what shape the report has, not the numeric values. -/

/-- One row of the `lagged_correlation` result frame. -/
structure LagEntry where
  lag : Nat
  correlation : ℚ
  n_obs : Nat
deriving DecidableEq, Repr

/-- Shift `df[col].shift(lag)`: the column shifted forward by `lag` rows — the
first `lag` rows become missing, the tail is truncated to the original
length. -/
def shiftCol (col : List (Option ℚ)) (lag : Nat) : List (Option ℚ) :=
  (List.replicate lag none ++ col).take col.length

/-- Alignment `pd.concat([shifted, df[target]], axis=1).dropna()` at lag `lag`:
align the shifted sentiment column with the unshifted target column row by
row and keep the rows where both values are present. -/
def alignedAt (df : List (Option ℚ × Option ℚ)) (lag : Nat) : List (ℚ × ℚ) :=
  ((shiftCol (df.map Prod.fst) lag).zip (df.map Prod.snd)).filterMap
    (fun r => r.1.bind (fun a => r.2.map (fun b => (a, b))))

/-- Function `lagged_correlation`, with `round(corr, 4)` folded into the opaque
`corr4`.  For each lag `0 … max_lag` the row `{lag, correlation, n_obs}` is
appended iff at least 10 aligned observations remain; otherwise the loop
`continue`s and the lag is omitted. -/
def lagged_correlation (corr4 : List (ℚ × ℚ) → ℚ)
    (df : List (Option ℚ × Option ℚ)) (max_lag : Nat) : List LagEntry :=
  (List.range (max_lag + 1)).filterMap (fun lag =>
    let valid := alignedAt df lag
    if valid.length < 10 then none
    else some ⟨lag, corr4 valid, valid.length⟩)

/-- One row of the `granger_test` result frame. -/
structure GrangerRow where
  lag : Nat
  p_value : ℚ
  significant_5pct : Bool
deriving DecidableEq, Repr

/-- Fault `ValueError("Datos insuficientes para Granger")`. -/
inductive GrangerFault where
  | insufficientData
deriving DecidableEq, Repr

/-- Projection `df[[target_col, sentiment_col]].dropna()`: the fully aligned
`(target, sentiment)` pairs, rows with a missing cell dropped. -/
def dropnaBoth (df : List (Option ℚ × Option ℚ)) : List (ℚ × ℚ) :=
  df.filterMap (fun r => r.2.bind (fun b => r.1.map (fun a => (b, a))))

/-- Function `granger_test`, with statsmodels' `grangercausalitytests` modelled as
the opaque p-value oracle `pval` (`pval data lag` stands for
`res[0]["ssr_ftest"][1]` of the dict entry `lag` of the single statsmodels
call) and `round(p_value, 6)` as the opaque `round6`.  The dict built with
`maxlag = max_lag` has keys `1 … max_lag`, iterated in insertion order. -/
def granger_test (pval : List (ℚ × ℚ) → Nat → ℚ) (round6 : ℚ → ℚ)
    (df : List (Option ℚ × Option ℚ)) (max_lag : Nat) :
    Except GrangerFault (List GrangerRow) :=
  let data := dropnaBoth df
  if data.length < 20 then .error .insufficientData
  else .ok ((List.range' 1 max_lag).map (fun lag =>
    ⟨lag, round6 (pval data lag), decide (pval data lag < (1 / 20 : ℚ))⟩))

/-! ## Partial-report merging — definitions

`backend/app/correlator.py` (`run_full_analysis`, lines 62–138) computes
`my_lags = split_work(all_lags, JOB_INDEX, JOB_TOTAL)` and writes one
report per shard whose per-lag entries are keyed by the owned lags; no
merge function appears in src (the aggregation of the per-shard
`summary_part_{JOB_INDEX}.json` files is external to it). -/

/-- A per-shard partial report: one entry per owned lag, keyed by the lag.
The per-lag payload is abstracted as `value lag` (in the code it is the
pair of the lagged-correlation record list and the Granger record list for
that lag). -/
def shardReport (allLags : List Nat) (index total : Nat) (value : Nat → β) :
    List (Nat × β) :=
  (split_work allLags index total).map (fun lag => (lag, value lag))

/-- Modelled from the spec: `merge_partial_reports` is the "union of
per-lag entries" of the per-shard reports; realised as report
concatenation, which is exactly the key union when the shards' key sets are
pairwise disjoint (which `claim_C8` proves they are). -/
def merge_partial_reports (reports : List (List (Nat × β))) : List (Nat × β) :=
  reports.flatten

/-- A finite table standing in for Python's `int` on the few decimal
strings a concrete witness run uses. -/
def pyIntTable : String → Nat := fun s =>
  if s = "0" then 0 else if s = "1" then 1 else if s = "2" then 2 else 0

/-! ## Work partitioner — theorems -/

theorem gSplit_nil (k index total : Nat) :
    gSplit k ([] : List α) index total = [] := rfl

theorem gSplit_cons (k : Nat) (x : α) (xs : List α) (index total : Nat) :
    gSplit k (x :: xs) index total =
      if k % total = index then x :: gSplit (k + 1) xs index total
      else gSplit (k + 1) xs index total := by
  simp only [gSplit, List.enumFrom_cons, List.filter_cons]
  by_cases h : k % total = index <;> simp [h]

theorem split_work_eq_gSplit (items : List α) (index total : Nat) :
    split_work items index total = gSplit 0 items index total := rfl

/-- Invariance: `gSplit` only depends on the starting position through its residue
modulo `total`. -/
theorem gSplit_congr_mod (xs : List α) :
    ∀ k₁ k₂ index total, k₁ % total = k₂ % total →
      gSplit k₁ xs index total = gSplit k₂ xs index total := by
  induction xs with
  | nil => intro _ _ _ _ _; rfl
  | cons x xs ih =>
    intro k₁ k₂ index total h
    have h1 : (k₁ + 1) % total = (k₂ + 1) % total := by
      rw [Nat.add_mod k₁ 1 total, Nat.add_mod k₂ 1 total, h]
    rw [gSplit_cons, gSplit_cons, h, ih (k₁ + 1) (k₂ + 1) index total h1]

/-- Summed over all workers, each item is kept exactly as often as it occurs
in the input: the shards form an exact partition, no duplication and no
omission. -/
theorem gSplit_count_sum [DecidableEq α] (xs : List α) :
    ∀ (k total : Nat), 1 ≤ total → ∀ x : α,
      (∑ index ∈ Finset.range total, (gSplit k xs index total).count x) =
        xs.count x := by
  induction xs with
  | nil => intro k total ht x; simp [gSplit_nil]
  | cons y ys ih =>
    intro k total ht x
    have hk : k % total < total := Nat.mod_lt _ (by omega)
    have hsum :
        (∑ index ∈ Finset.range total, (gSplit k (y :: ys) index total).count x) =
          (∑ index ∈ Finset.range total,
            ((if k % total = index then List.count x [y] else 0) +
              (gSplit (k + 1) ys index total).count x)) := by
      refine Finset.sum_congr rfl ?_
      intro index _
      rw [gSplit_cons]
      by_cases h : k % total = index <;> simp [h, List.count_cons] <;> omega
    rw [hsum, Finset.sum_add_distrib]
    rw [ih (k + 1) total ht x]
    have hone :
        (∑ index ∈ Finset.range total,
          (if k % total = index then List.count x [y] else 0)) =
          List.count x [y] := by
      rw [Finset.sum_ite_eq (Finset.range total) (k % total)
        (fun _ => List.count x [y])]
      simp [Finset.mem_range.mpr hk]
    rw [hone]
    by_cases hxy : x = y <;>
      simp [List.count_cons, List.count_nil, hxy] <;> omega

/-- Summed over all workers, the shard lengths add up to the input length. -/
theorem gSplit_length_sum (xs : List α) :
    ∀ (k total : Nat), 1 ≤ total →
      (∑ index ∈ Finset.range total, (gSplit k xs index total).length) =
        xs.length := by
  induction xs with
  | nil => intro k total ht; simp [gSplit_nil]
  | cons y ys ih =>
    intro k total ht
    have hk : k % total < total := Nat.mod_lt _ (by omega)
    have hsum :
        (∑ index ∈ Finset.range total, (gSplit k (y :: ys) index total).length) =
          (∑ index ∈ Finset.range total,
            ((if k % total = index then 1 else 0) +
              (gSplit (k + 1) ys index total).length)) := by
      refine Finset.sum_congr rfl ?_
      intro index _
      rw [gSplit_cons]
      by_cases h : k % total = index <;> simp [h] <;> omega
    rw [hsum, Finset.sum_add_distrib, ih (k + 1) total ht]
    have hone :
        (∑ index ∈ Finset.range total, (if k % total = index then 1 else 0)) = 1 := by
      rw [Finset.sum_ite_eq (Finset.range total) (k % total) (fun _ => 1)]
      simp [Finset.mem_range.mpr hk]
    rw [hone]
    simp only [List.length_cons]
    omega

/-- Each shard is a subsequence of the input: the original relative order of
the kept items is preserved and no item position is used twice. -/
theorem gSplit_sublist (xs : List α) (k index total : Nat) :
    List.Sublist (gSplit k xs index total) xs := by
  have h1 : List.Sublist
      ((xs.enumFrom k).filter (fun p => p.1 % total = index))
      (xs.enumFrom k) := List.filter_sublist _
  have h2 := h1.map Prod.snd
  rw [List.enumFrom_map_snd] at h2
  exact h2

/-- A worker whose index is at least `k + xs.length` receives nothing from
positions enumerated from `k`: every position value stays below `index`. -/
theorem gSplit_eq_nil_of_le (xs : List α) :
    ∀ (k index total : Nat), k + xs.length ≤ index →
      gSplit k xs index total = [] := by
  induction xs with
  | nil => intro k index total _; rfl
  | cons y ys ih =>
    intro k index total h
    rw [gSplit_cons]
    have hmod : k % total ≤ k := Nat.mod_le _ _
    have hne : k % total ≠ index := by
      simp only [List.length_cons] at h
      omega
    rw [if_neg hne]
    exact ih (k + 1) index total (by simp only [List.length_cons] at h; omega)

/-- No enumerated position is owned by two distinct workers. -/
theorem ownedPairs_disjoint (items : List α) (i j total : Nat) (hij : i ≠ j) :
    ∀ p ∈ ownedPairs items i total, p ∉ ownedPairs items j total := by
  intro p hp hq
  simp only [ownedPairs, List.mem_filter, decide_eq_true_eq] at hp hq
  exact hij (hp.2 ▸ hq.2)

theorem split_work_checked_ok (items : List α) (index total : Nat)
    (ht : 1 ≤ total) :
    split_work_checked items index total = .ok (split_work items index total) := by
  simp only [split_work_checked]
  rw [if_neg]
  intro h
  omega

theorem split_work_checked_zero (items : List α) (index : Nat)
    (hne : items.isEmpty = false) :
    split_work_checked items index 0 = .error .zeroDivision := by
  simp [split_work_checked, hne]

theorem everyNth_cons (x : α) (xs : List α) (step : Nat) :
    everyNth (x :: xs) step = x :: everyNth (xs.drop (step - 1)) step := by
  rw [everyNth]

/-- The round-robin filter started at position `k` coincides with the stride
slice: the worker `index` keeps position `index`, then every `total`-th
position after it. -/
theorem gSplit_eq_everyNth (xs : List α) :
    ∀ (k index total : Nat), index < total → k < total →
      gSplit k xs index total =
        everyNth (xs.drop (if k ≤ index then index - k else index + total - k))
          total := by
  induction xs with
  | nil => intro k index total _ _; simp [gSplit_nil, everyNth]
  | cons x xs' ih =>
    intro k index total hit hk
    rw [gSplit_cons]
    simp only [Nat.mod_eq_of_lt hk]
    by_cases hke : k = index
    · subst hke
      rw [if_pos rfl]
      rw [show (if k ≤ k then k - k else k + total - k) = 0 from by simp]
      rw [List.drop_zero, everyNth_cons]
      by_cases hk1 : k + 1 < total
      · rw [ih (k + 1) k total hit hk1]
        rw [show (if k + 1 ≤ k then k - (k + 1) else k + total - (k + 1)) =
          total - 1 from by split_ifs <;> omega]
      · have hcong := gSplit_congr_mod xs' (k + 1) 0 k total (by
          rw [show k + 1 = total from by omega, Nat.mod_self, Nat.zero_mod])
        rw [hcong, ih 0 k total hit (by omega)]
        rw [show (if 0 ≤ k then k - 0 else k + total - 0) = total - 1 from by
          simp only [Nat.zero_le, if_true]
          omega]
    · rw [if_neg hke]
      obtain ⟨d, hd⟩ :
          ∃ d, (if k ≤ index then index - k else index + total - k) = d + 1 :=
        ⟨(if k ≤ index then index - k else index + total - k) - 1, by
          split_ifs <;> omega⟩
      rw [hd, List.drop_succ_cons]
      by_cases hk1 : k + 1 < total
      · rw [ih (k + 1) index total hit hk1]
        rw [show (if k + 1 ≤ index then index - (k + 1)
          else index + total - (k + 1)) = d from by
          split_ifs at hd ⊢ <;> omega]
      · have hcong := gSplit_congr_mod xs' (k + 1) 0 index total (by
          rw [show k + 1 = total from by omega, Nat.mod_self, Nat.zero_mod])
        rw [hcong, ih 0 index total hit (by omega)]
        rw [show (if 0 ≤ index then index - 0 else index + total - 0) = d from by
          split_ifs at hd ⊢ <;> omega]

/-- The comprehension variant equals the stride variant on every valid
`(index, total)` pair. -/
theorem split_work_eq_sources (items : List α) (index total : Nat)
    (h : index < total) :
    split_work items index total = split_work_sources items index total := by
  rw [split_work_eq_gSplit, split_work_sources,
    gSplit_eq_everyNth items 0 index total h (by omega)]
  simp

/-- A worker index at least `total` owns no position, so its shard is empty
(no fault is raised; compare `claim_C9_counterexample`). -/
theorem gSplit_eq_nil_of_total_le (xs : List α) :
    ∀ (k index total : Nat), 1 ≤ total → total ≤ index →
      gSplit k xs index total = [] := by
  induction xs with
  | nil => intro k index total _ _; rfl
  | cons y ys ih =>
    intro k index total ht hi
    rw [gSplit_cons]
    have : k % total < total := Nat.mod_lt _ (by omega)
    rw [if_neg (by omega)]
    exact ih (k + 1) index total ht hi

/-! ## Job lifecycle controller — theorems -/

/-- If the polls before `n` all find the job, poll `n` reports 404, and `n`
is reachable before the timeout check fires (`n ≤ timeout + 1`), the wait
loop succeeds at poll `n`. -/
theorem waitFrom_ok (readAt : Nat → ReadResp) (timeout n : Nat)
    (hgone : readAt n = .notFound)
    (hbefore : ∀ m, m < n → readAt m = .found)
    (hn : n ≤ timeout + 1) :
    wait_until_job_deleted readAt timeout = .ok n := by
  have key : ∀ d j, j ≤ n → n - j = d → waitFrom readAt timeout j = .ok n := by
    intro d
    induction d with
    | zero =>
      intro j hj hd
      have hjn : j = n := by omega
      subst hjn
      rw [waitFrom, hgone]
    | succ d ih =>
      intro j hj hd
      have hjn : j < n := by omega
      rw [waitFrom, hbefore j hjn]
      simp only [show ¬timeout < j from by omega, dite_false]
      exact ih (j + 1) (by omega) (by omega)
  exact key n 0 (by omega) (by omega)

/-- If the job is still found at every poll up to and including poll
`timeout + 1`, the wait loop raises the deletion-timeout fault at poll
`timeout + 1` and stops polling. -/
theorem waitFrom_timeout (readAt : Nat → ReadResp) (timeout : Nat)
    (hstuck : ∀ m, m ≤ timeout + 1 → readAt m = .found) :
    wait_until_job_deleted readAt timeout =
      .error (.deletionTimeout, timeout + 1) := by
  have key : ∀ d j, j ≤ timeout + 1 → timeout + 1 - j = d →
      waitFrom readAt timeout j = .error (.deletionTimeout, timeout + 1) := by
    intro d
    induction d with
    | zero =>
      intro j hj hd
      have hje : j = timeout + 1 := by omega
      subst hje
      rw [waitFrom, hstuck _ (Nat.le_refl _)]
      simp only [show timeout < timeout + 1 from by omega, dite_true]
    | succ d ih =>
      intro j hj hd
      rw [waitFrom, hstuck j (by omega)]
      simp only [show ¬timeout < j from by omega, dite_false]
      exact ih (j + 1) (by omega) (by omega)
  exact key (timeout + 1) 0 (by omega) (by omega)

/-- The wait loop's reads happen at consecutive unit-spaced times: whatever
poll `n` it ends at, it has read exactly at times `0, 1, …, n`. -/
theorem readTrace_mem (n t : Nat) :
    KubeAction.readJob t ∈ readTrace n ↔ t ≤ n := by
  simp only [readTrace, List.mem_map, List.mem_range]
  constructor
  · rintro ⟨m, hm, he⟩
    cases he
    omega
  · intro h
    exact ⟨t, by omega, rfl⟩

/-- Trace fact: `readTrace` contains no create call. -/
theorem readTrace_no_create (n : Nat) :
    (readTrace n).count KubeAction.createJob = 0 := by
  rw [List.count_eq_zero]
  intro h
  simp only [readTrace, List.mem_map, List.mem_range] at h
  obtain ⟨m, _, he⟩ := h
  cases he

theorem run_job_created (s : Sched) (h1 : s.create1 = .ok) :
    run_job s = (.ok .created, [.createJob]) := by
  simp only [run_job]
  rw [h1]

theorem run_job_create_fault (s : Sched) (c : Nat)
    (h1 : s.create1 = .apiError c) :
    run_job s = (.error (.api c), [.createJob]) := by
  simp only [run_job]
  rw [h1]

theorem run_job_wait_error (s : Sched) (f : JobFault) (n : Nat)
    (h1 : s.create1 = .conflict)
    (hw : wait_until_job_deleted s.readAt 30 = .error (f, n)) :
    run_job s =
      (.error f, [.createJob, .deleteJob "Foreground"] ++ readTrace n) := by
  simp only [run_job]
  rw [h1, hw]

theorem run_job_restarted (s : Sched) (n : Nat)
    (h1 : s.create1 = .conflict)
    (hw : wait_until_job_deleted s.readAt 30 = .ok n)
    (h2 : s.create2 = .ok) :
    run_job s =
      (.ok .restarted,
        [.createJob, .deleteJob "Foreground"] ++ readTrace n ++ [.createJob]) := by
  simp only [run_job]
  rw [h1, hw, h2]

theorem run_job_second_conflict (s : Sched) (n : Nat)
    (h1 : s.create1 = .conflict)
    (hw : wait_until_job_deleted s.readAt 30 = .ok n)
    (h2 : s.create2 = .conflict) :
    run_job s =
      (.error (.api 409),
        [.createJob, .deleteJob "Foreground"] ++ readTrace n ++ [.createJob]) := by
  simp only [run_job]
  rw [h1, hw, h2]

theorem run_job_second_fault (s : Sched) (n c : Nat)
    (h1 : s.create1 = .conflict)
    (hw : wait_until_job_deleted s.readAt 30 = .ok n)
    (h2 : s.create2 = .apiError c) :
    run_job s =
      (.error (.api c),
        [.createJob, .deleteJob "Foreground"] ++ readTrace n ++ [.createJob]) := by
  simp only [run_job]
  rw [h1, hw, h2]

/-! ## Causality analysis engine — theorems -/

/-- A `filterMap` whose body drops an element below a threshold and
otherwise maps it equals a `filter` followed by a `map`. -/
theorem filterMap_guard {β : Type} (l : List Nat) (thresh : Nat)
    (len : Nat → Nat) (g : Nat → β) :
    l.filterMap (fun x => if len x < thresh then none else some (g x)) =
      (l.filter (fun x => thresh ≤ len x)).map g := by
  induction l with
  | nil => rfl
  | cons x xs ih =>
    simp only [List.filterMap_cons, List.filter_cons]
    by_cases h : len x < thresh
    · have h' : ¬thresh ≤ len x := by omega
      simp [h, h', ih]
    · have h' : thresh ≤ len x := by omega
      simp [h, h', ih]

/-! ## Job spec builder — theorems -/

/-- Looking up `JOB_COMPLETIONS` in a spawned replica's environment yields
the stringified completions count, provided the manifest's own entries do
not shadow the key (no job definition in `manifests.py` does). -/
theorem envGet_spawnEnv_total (spec : JobSpecModel) (i : Nat)
    (hnames : ∀ e ∈ spec.env, e.name ≠ "JOB_COMPLETIONS") :
    envGet (spawnEnv spec i) "JOB_COMPLETIONS" "1" =
      Nat.repr spec.completions := by
  simp only [envGet, spawnEnv]
  rw [List.find?_append]
  have hnone : spec.env.find? (fun e => e.name = "JOB_COMPLETIONS") = none := by
    rw [List.find?_eq_none]
    intro e he
    simp only [decide_eq_true_eq]
    exact hnames e he
  rw [hnone]
  simp [List.find?]

/-- Looking up `JOB_COMPLETION_INDEX` in replica `i`'s environment yields
the stringified ordinal `i`, provided the manifest's own entries do not
shadow the key. -/
theorem envGet_spawnEnv_index (spec : JobSpecModel) (i : Nat)
    (hnames : ∀ e ∈ spec.env, e.name ≠ "JOB_COMPLETION_INDEX") :
    envGet (spawnEnv spec i) "JOB_COMPLETION_INDEX" "0" = Nat.repr i := by
  simp only [envGet, spawnEnv]
  rw [List.find?_append]
  have hnone :
      spec.env.find? (fun e => e.name = "JOB_COMPLETION_INDEX") = none := by
    rw [List.find?_eq_none]
    intro e he
    simp only [decide_eq_true_eq]
    exact hnames e he
  rw [hnone]
  simp [List.find?]

/-! ## Partial-report merging — theorems -/

/-- The merged report's key list is the flattened per-shard lag
assignment. -/
theorem merge_keys (allLags : List Nat) (total : Nat) (value : Nat → β) :
    (merge_partial_reports ((List.range total).map
        (fun i => shardReport allLags i total value))).map Prod.fst =
      ((List.range total).map (fun i => split_work allLags i total)).flatten := by
  simp [merge_partial_reports, shardReport, List.map_flatten, List.map_map,
    Function.comp_def]

/-- Each key occurs in the merged report exactly as often as in the lag
list itself. -/
theorem merge_keys_count (allLags : List Nat) (total : Nat) (value : Nat → β)
    (ht : 1 ≤ total) (x : Nat) :
    ((merge_partial_reports ((List.range total).map
        (fun i => shardReport allLags i total value))).map Prod.fst).count x =
      allLags.count x := by
  rw [merge_keys, List.count_flatten, List.map_map]
  have h2 := gSplit_count_sum allLags 0 total ht x
  simp only [Function.comp_def, split_work_eq_gSplit]
  exact h2

end MediaCorr

open MediaCorr

/-- Claim C1: for every item sequence and every `total ≥ 1`, the outputs of
`split_work(items, index, total)` over `index = 0 .. total - 1` are pairwise
disjoint (no enumerated position is owned by two workers), every item of the
input appears in exactly one output (counted with multiplicity: the shard
counts of any value sum to its count in the input — no duplication, no
omission), and each output preserves the original relative order (it is a
subsequence of the input); this holds independently of the relationship
between `total` and `items.length`, and when `total > items.length` the
workers with `index ≥ items.length` receive an empty subsequence. -/
theorem claim_C1 {α : Type} [DecidableEq α] (items : List α) (total : Nat)
    (ht : 1 ≤ total) :
    (∀ index, split_work items index total =
        (ownedPairs items index total).map Prod.snd)
    ∧ (∀ index, List.Sublist (split_work items index total) items)
    ∧ (∀ x : α,
        (∑ index ∈ Finset.range total, (split_work items index total).count x) =
          items.count x)
    ∧ (∀ i j, i ≠ j →
        ∀ p ∈ ownedPairs items i total, p ∉ ownedPairs items j total)
    ∧ (∀ index, items.length ≤ index → split_work items index total = []) := by
  refine ⟨fun _ => rfl, ?_, ?_, ?_, ?_⟩
  · intro index
    rw [split_work_eq_gSplit]
    exact gSplit_sublist items 0 index total
  · intro x
    simp only [split_work_eq_gSplit]
    exact gSplit_count_sum items 0 total ht x
  · exact fun i j hij => ownedPairs_disjoint items i j total hij
  · intro index h
    rw [split_work_eq_gSplit]
    exact gSplit_eq_nil_of_le items 0 index total (by omega)

theorem claim_C1_witness :
    1 ≤ 3 ∧
      ((∀ index, split_work [10, 20, 30, 40, 50] index 3 =
          (ownedPairs [10, 20, 30, 40, 50] index 3).map Prod.snd)
      ∧ (∀ index, List.Sublist (split_work [10, 20, 30, 40, 50] index 3)
          [10, 20, 30, 40, 50])
      ∧ (∀ x : Nat,
          (∑ index ∈ Finset.range 3,
            (split_work [10, 20, 30, 40, 50] index 3).count x) =
            List.count x [10, 20, 30, 40, 50])
      ∧ (∀ i j, i ≠ j →
          ∀ p ∈ ownedPairs [10, 20, 30, 40, 50] i 3,
            p ∉ ownedPairs [10, 20, 30, 40, 50] j 3)
      ∧ (∀ index, List.length [10, 20, 30, 40, 50] ≤ index →
          split_work [10, 20, 30, 40, 50] index 3 = [])) :=
  ⟨by decide, claim_C1 [10, 20, 30, 40, 50] 3 (by decide)⟩

/-- Claim C9, counterexample: the claim asserts that every `(index, total)`
pair violating `total ≥ 1 ∧ 0 ≤ index < total` makes the partitioner signal
an `InvalidShardConfiguration` fault.  At the violating pair
`index = 5, total = 2` (on input `[10]`) the code performs no validation and
silently returns the empty shard instead of any fault. -/
theorem claim_C9_counterexample :
    ¬(5 < 2) ∧ split_work_checked ([10] : List Nat) 5 2 = .ok [] := by
  constructor
  · decide
  · rfl

/-- Claim C9, amended: the partitioner performs no precondition validation.
For every `total ≥ 1` it succeeds (never fails), even on pairs violating
`index < total`, where it silently returns the empty list; the only runtime
fault is Python's `ZeroDivisionError` when `total = 0` is applied to a
non-empty input — no `InvalidShardConfiguration` fault exists in the code. -/
theorem claim_C9_amended {α : Type} (items : List α) (index total : Nat) :
    (1 ≤ total → split_work_checked items index total =
        .ok (split_work items index total))
    ∧ (1 ≤ total → total ≤ index →
        split_work_checked items index total = .ok [])
    ∧ (total = 0 → items.isEmpty = false →
        split_work_checked items index total = .error .zeroDivision) := by
  refine ⟨fun ht => split_work_checked_ok items index total ht, ?_, ?_⟩
  · intro ht hi
    rw [split_work_checked_ok items index total ht, split_work_eq_gSplit,
      gSplit_eq_nil_of_total_le items 0 index total ht hi]
  · intro h0 hne
    subst h0
    exact split_work_checked_zero items index hne

/-- Claim C10: on every valid pair (`total ≥ 1`, `0 ≤ index < total`) the
three textual variants of the work partitioner — the comprehension in
`correlator.py`, the identical comprehension in `filter.py`, and the stride
slice `items[index::total]` in `sources.py` — return exactly the same list. -/
theorem claim_C10 {α : Type} (items : List α) (index total : Nat)
    (h : index < total) :
    split_work items index total = split_work_sources items index total
    ∧ split_work items index total = split_work_filterpy items index total :=
  ⟨split_work_eq_sources items index total h, rfl⟩

theorem claim_C10_witness :
    1 < 3 ∧
      (split_work [10, 20, 30, 40, 50, 60, 70] 1 3 =
          split_work_sources [10, 20, 30, 40, 50, 60, 70] 1 3
        ∧ split_work [10, 20, 30, 40, 50, 60, 70] 1 3 =
          split_work_filterpy [10, 20, 30, 40, 50, 60, 70] 1 3) :=
  ⟨by decide, claim_C10 [10, 20, 30, 40, 50, 60, 70] 1 3 (by decide)⟩

/-- Claim C3, counterexample: the claim asserts a plain submit that, on a
"name already in use" response, returns `already_exists` and performs no
delete and no recreation.  The only submit operation in the code is
`run_job`, and on a conflicting scheduler (`conflictSched`) it deletes the
existing job, recreates it, and returns `restarted` — not `already_exists`. -/
theorem claim_C3_counterexample :
    run_job conflictSched =
      (.ok .restarted,
        [.createJob, .deleteJob "Foreground", .readJob 0, .createJob])
    ∧ (run_job conflictSched).1 ≠ .ok .alreadyExists
    ∧ KubeAction.deleteJob "Foreground" ∈ (run_job conflictSched).2 := by
  have hw : wait_until_job_deleted conflictSched.readAt 30 = .ok 0 :=
    waitFrom_ok _ 30 0 rfl (fun m hm => absurd hm (Nat.not_lt_zero m)) (by omega)
  have hr := run_job_restarted conflictSched 0 rfl hw rfl
  refine ⟨by rw [hr]; rfl, by rw [hr]; simp, by rw [hr]; simp⟩

/-- Claim C3, amended: the code has no recovery-free submit: `run_job`, the
only submit operation, never reports `already_exists` for any scheduler
behaviour, and on a "name already in use" conflict it always issues a
foreground delete of the existing job (followed by recreation when the job
disappears in time). -/
theorem claim_C3_amended (s : Sched) :
    (run_job s).1 ≠ .ok .alreadyExists
    ∧ (s.create1 = .conflict →
        KubeAction.deleteJob "Foreground" ∈ (run_job s).2) := by
  cases h1 : s.create1 with
  | ok =>
    rw [run_job_created s h1]
    exact ⟨by simp, fun hc => by cases hc⟩
  | apiError c =>
    rw [run_job_create_fault s c h1]
    exact ⟨by simp, fun hc => by cases hc⟩
  | conflict =>
    cases hw : wait_until_job_deleted s.readAt 30 with
    | error fn =>
      obtain ⟨f, n⟩ := fn
      rw [run_job_wait_error s f n h1 hw]
      exact ⟨by simp, fun _ => by simp⟩
    | ok n =>
      cases h2 : s.create2 with
      | ok =>
        rw [run_job_restarted s n h1 hw h2]
        exact ⟨by simp, fun _ => by simp⟩
      | conflict =>
        rw [run_job_second_conflict s n h1 hw h2]
        exact ⟨by simp, fun _ => by simp⟩
      | apiError c =>
        rw [run_job_second_fault s n c h1 hw h2]
        exact ⟨by simp, fun _ => by simp⟩

/-- Claim C4: on a naming conflict, `run_job` deletes the existing job with
foreground (cascading) propagation, then polls for absence once per unit
interval at times `0, 1, …`; when the scheduler reports the job absent
(404) at poll `n` within the deletion window, it recreates the job and
returns `restarted`; and when the first creation succeeds without conflict
it returns `created` with no other scheduler call. -/
theorem claim_C4 (s : Sched) (n : Nat)
    (hconf : s.create1 = .conflict)
    (hbefore : ∀ m, m < n → s.readAt m = .found)
    (hgone : s.readAt n = .notFound)
    (hn : n ≤ 31)
    (hc2 : s.create2 = .ok) :
    run_job s =
      (.ok .restarted,
        [.createJob, .deleteJob "Foreground"] ++ readTrace n ++ [.createJob])
    ∧ (∀ t, KubeAction.readJob t ∈ (run_job s).2 ↔ t ≤ n)
    ∧ (∀ s' : Sched, s'.create1 = .ok →
        run_job s' = (.ok .created, [.createJob])) := by
  have hw : wait_until_job_deleted s.readAt 30 = .ok n :=
    waitFrom_ok s.readAt 30 n hgone hbefore (by omega)
  have hr := run_job_restarted s n hconf hw hc2
  refine ⟨hr, ?_, fun s' h => run_job_created s' h⟩
  intro t
  rw [hr]
  simp [List.mem_append, readTrace_mem]

theorem claim_C4_witness :
    (slowSched.create1 = .conflict)
    ∧ (∀ m, m < 2 → slowSched.readAt m = .found)
    ∧ (slowSched.readAt 2 = .notFound)
    ∧ (2 ≤ 31)
    ∧ (slowSched.create2 = .ok)
    ∧ (run_job slowSched =
        (.ok .restarted,
          [.createJob, .deleteJob "Foreground"] ++ readTrace 2 ++ [.createJob])
      ∧ (∀ t, KubeAction.readJob t ∈ (run_job slowSched).2 ↔ t ≤ 2)
      ∧ (∀ s' : Sched, s'.create1 = .ok →
          run_job s' = (.ok .created, [.createJob]))) :=
  ⟨rfl, by decide, rfl, by decide, rfl,
    claim_C4 slowSched 2 rfl (by decide) rfl (by decide) rfl⟩

/-- Claim C5: when after a naming conflict the old job is still found at every
poll of the deletion window (polls `0 … 31` for the code's timeout of 30
time units), `run_job` propagates the deletion-timeout fault and issues no
create call after the initial conflicting one: recreation is not attempted
(fail closed). -/
theorem claim_C5 (s : Sched)
    (hconf : s.create1 = .conflict)
    (hstuck : ∀ m, m ≤ 31 → s.readAt m = .found) :
    run_job s =
      (.error .deletionTimeout,
        [.createJob, .deleteJob "Foreground"] ++ readTrace 31)
    ∧ (run_job s).2.count .createJob = 1 := by
  have hw : wait_until_job_deleted s.readAt 30 =
      .error (.deletionTimeout, 31) :=
    waitFrom_timeout s.readAt 30 (fun m hm => hstuck m (by omega))
  have hr := run_job_wait_error s .deletionTimeout 31 hconf hw
  refine ⟨hr, ?_⟩
  rw [hr]
  simp [List.count_append, readTrace_no_create]

theorem claim_C5_witness :
    (stuckSched.create1 = .conflict)
    ∧ (∀ m, m ≤ 31 → stuckSched.readAt m = .found)
    ∧ (run_job stuckSched =
        (.error .deletionTimeout,
          [.createJob, .deleteJob "Foreground"] ++ readTrace 31)
      ∧ (run_job stuckSched).2.count .createJob = 1) :=
  ⟨rfl, fun _ _ => rfl, claim_C5 stuckSched rfl (fun _ _ => rfl)⟩

/-- Claim C6: `lagged_correlation` considers each lag `0 … max_lag`, shifts
the sentiment series forward by the lag, drops rows where either series is
undefined after the shift, and emits the row `{lag, correlation, n_obs}`
for exactly the lags with at least 10 aligned observations — lags with
fewer are omitted from the report entirely, never reported as zero or
undefined; each emitted row records the (opaque, Pearson) correlation of
the shifted sentiment against the unshifted return column and the aligned
observation count. -/
theorem claim_C6 (corr4 : List (ℚ × ℚ) → ℚ)
    (df : List (Option ℚ × Option ℚ)) (max_lag : Nat) :
    lagged_correlation corr4 df max_lag =
      ((List.range (max_lag + 1)).filter
          (fun lag => 10 ≤ (alignedAt df lag).length)).map
        (fun lag =>
          ⟨lag, corr4 (alignedAt df lag), (alignedAt df lag).length⟩)
    ∧ (∀ lag : Nat,
        (∃ e ∈ lagged_correlation corr4 df max_lag, e.lag = lag) ↔
          (lag ≤ max_lag ∧ 10 ≤ (alignedAt df lag).length)) := by
  have heq : lagged_correlation corr4 df max_lag =
      ((List.range (max_lag + 1)).filter
          (fun lag => 10 ≤ (alignedAt df lag).length)).map
        (fun lag =>
          (⟨lag, corr4 (alignedAt df lag), (alignedAt df lag).length⟩ :
            LagEntry)) := by
    simp only [lagged_correlation]
    exact filterMap_guard (List.range (max_lag + 1)) 10
      (fun lag => (alignedAt df lag).length)
      (fun lag =>
        (⟨lag, corr4 (alignedAt df lag), (alignedAt df lag).length⟩ :
          LagEntry))
  refine ⟨heq, ?_⟩
  intro lag
  rw [heq]
  constructor
  · rintro ⟨e, he, hlag⟩
    simp only [List.mem_map, List.mem_filter, List.mem_range,
      decide_eq_true_eq] at he
    obtain ⟨a, ⟨ha1, ha2⟩, hae⟩ := he
    have halag : a = lag := by rw [← hlag, ← hae]
    subst halag
    exact ⟨by omega, ha2⟩
  · rintro ⟨h1, h2⟩
    refine ⟨⟨lag, corr4 (alignedAt df lag), (alignedAt df lag).length⟩, ?_, rfl⟩
    simp only [List.mem_map, List.mem_filter, List.mem_range,
      decide_eq_true_eq]
    exact ⟨lag, ⟨by omega, h2⟩, rfl⟩

/-- Claim C7: `granger_test` raises the insufficient-data fault, and produces
no report, exactly when the fully aligned return/sentiment pair has fewer
than 20 observations; otherwise it returns a report with one row per lag
`1 … max_lag`, each recording the (opaque) p-value, 6-decimal rounded, and
the boolean significance flag `p < 0.05`. -/
theorem claim_C7 (pval : List (ℚ × ℚ) → Nat → ℚ) (round6 : ℚ → ℚ)
    (df : List (Option ℚ × Option ℚ)) (max_lag : Nat) :
    (granger_test pval round6 df max_lag = .error .insufficientData ↔
      (dropnaBoth df).length < 20)
    ∧ (20 ≤ (dropnaBoth df).length →
        ∃ rows, granger_test pval round6 df max_lag = .ok rows
          ∧ rows.map GrangerRow.lag = List.range' 1 max_lag
          ∧ ∀ r ∈ rows,
              r.p_value = round6 (pval (dropnaBoth df) r.lag)
              ∧ (r.significant_5pct = true ↔
                  pval (dropnaBoth df) r.lag < (1 / 20 : ℚ))) := by
  constructor
  · constructor
    · intro h
      by_contra hlen
      simp only [granger_test] at h
      rw [if_neg hlen] at h
      cases h
    · intro hlen
      simp [granger_test, hlen]
  · intro hge
    refine ⟨(List.range' 1 max_lag).map (fun lag =>
      ⟨lag, round6 (pval (dropnaBoth df) lag),
        decide (pval (dropnaBoth df) lag < (1 / 20 : ℚ))⟩), ?_, ?_, ?_⟩
    · simp only [granger_test]
      rw [if_neg (by omega)]
    · rw [List.map_map]
      simp [Function.comp_def]
    · intro r hr
      simp only [List.mem_map] at hr
      obtain ⟨lag, _, hre⟩ := hr
      subst hre
      exact ⟨rfl, by simp⟩

/-- Claim C2: a job spec built with parallelism `p` requests exactly `p`
replicas (`completions = parallelism = p`, Indexed completion mode), and
every spawned replica receives, through its environment, a `worker_total`
value equal to `p` (`JOB_COMPLETIONS`, as parsed by the worker-side
`JOB_TOTAL` read) and its 0-based ordinal (`JOB_COMPLETION_INDEX`, as
parsed by the `JOB_INDEX` read) — so the `total` passed to the work
partitioner inside each shard process equals the scheduler's replica
count.  `pyInt` is Python's decimal parser, assumed correct on the
stringified numerals actually used; the manifest's own env entries are
assumed not to shadow the two ordinal keys (true of every job definition in
`manifests.py`). -/
theorem claim_C2 (pyInt : String → Nat) (name image : String)
    (command : List String) (p : Nat) (env : List EnvVar)
    (hnames : ∀ e ∈ env,
      e.name ≠ "JOB_COMPLETION_INDEX" ∧ e.name ≠ "JOB_COMPLETIONS")
    (hp : pyInt (Nat.repr p) = p)
    (hi : ∀ i, i < p → pyInt (Nat.repr i) = i) :
    (base_job name image command p env).parallelism = p
    ∧ (base_job name image command p env).completions = p
    ∧ (base_job name image command p env).completionMode = "Indexed"
    ∧ (spawnedReplicas (base_job name image command p env)).length = p
    ∧ (∀ i, i < p →
        jobTotalRead pyInt (spawnEnv (base_job name image command p env) i) = p
        ∧ jobIndexRead pyInt
            (spawnEnv (base_job name image command p env) i) = i) := by
  refine ⟨rfl, rfl, rfl, by simp [spawnedReplicas, base_job], ?_⟩
  intro i hip
  constructor
  · rw [jobTotalRead,
      envGet_spawnEnv_total (base_job name image command p env) i
        (fun e he => (hnames e he).2)]
    exact hp
  · rw [jobIndexRead,
      envGet_spawnEnv_index (base_job name image command p env) i
        (fun e he => (hnames e he).1)]
    exact hi i hip

theorem claim_C2_witness :
    (∀ e ∈ ([] : List EnvVar),
      e.name ≠ "JOB_COMPLETION_INDEX" ∧ e.name ≠ "JOB_COMPLETIONS")
    ∧ pyIntTable (Nat.repr 2) = 2
    ∧ (∀ i, i < 2 → pyIntTable (Nat.repr i) = i)
    ∧ ((base_job "correlator-job" "mediacorr-correlator:latest"
          ["python", "-m", "app.correlator"] 2 []).parallelism = 2
      ∧ (base_job "correlator-job" "mediacorr-correlator:latest"
          ["python", "-m", "app.correlator"] 2 []).completions = 2
      ∧ (base_job "correlator-job" "mediacorr-correlator:latest"
          ["python", "-m", "app.correlator"] 2 []).completionMode = "Indexed"
      ∧ (spawnedReplicas (base_job "correlator-job"
          "mediacorr-correlator:latest"
          ["python", "-m", "app.correlator"] 2 [])).length = 2
      ∧ (∀ i, i < 2 →
          jobTotalRead pyIntTable
            (spawnEnv (base_job "correlator-job"
              "mediacorr-correlator:latest"
              ["python", "-m", "app.correlator"] 2 []) i) = 2
          ∧ jobIndexRead pyIntTable
            (spawnEnv (base_job "correlator-job"
              "mediacorr-correlator:latest"
              ["python", "-m", "app.correlator"] 2 []) i) = i)) :=
  ⟨by simp, by decide, by decide,
    claim_C2 pyIntTable "correlator-job" "mediacorr-correlator:latest"
      ["python", "-m", "app.correlator"] 2 [] (by simp) (by decide)
      (by decide)⟩

/-- Claim C8: when the shards' lag sets are assigned by the work partitioner
over a duplicate-free lag range, the merged report is the key union of the
per-lag entries: its key list is duplicate-free, a lag appears in it iff it
appears in the lag range, its size equals the lag range's size, and no lag
key appears in two distinct shard reports — the merge is a disjoint union
needing no conflict resolution.  (Instantiating the witness with the lag
range `[0, 3, 1, 4, 2, 5]` and two shards gives shard reports covering
`{0, 1, 2}` and `{3, 4, 5}` whose merge has exactly six lag entries.) -/
theorem claim_C8 {β : Type} (value : Nat → β) (allLags : List Nat)
    (total : Nat) (hnd : allLags.Nodup) (ht : 1 ≤ total) :
    ((merge_partial_reports ((List.range total).map
        (fun i => shardReport allLags i total value))).map Prod.fst).Nodup
    ∧ (∀ lag, lag ∈ (merge_partial_reports ((List.range total).map
        (fun i => shardReport allLags i total value))).map Prod.fst ↔
          lag ∈ allLags)
    ∧ (merge_partial_reports ((List.range total).map
        (fun i => shardReport allLags i total value))).length =
        allLags.length
    ∧ (∀ i j, i < total → j < total → i ≠ j → ∀ lag,
        lag ∈ split_work allLags i total →
          lag ∉ split_work allLags j total) := by
  have hcount := fun x => merge_keys_count allLags total value ht x
  refine ⟨?_, ?_, ?_, ?_⟩
  · rw [List.nodup_iff_count_le_one]
    intro a
    rw [hcount a]
    exact List.nodup_iff_count_le_one.mp hnd a
  · intro lag
    rw [← List.count_pos_iff, ← List.count_pos_iff, hcount lag]
  · have hlen : (merge_partial_reports ((List.range total).map
        (fun i => shardReport allLags i total value))).length =
        ((merge_partial_reports ((List.range total).map
          (fun i => shardReport allLags i total value))).map Prod.fst).length :=
      (List.length_map _ _).symm
    rw [hlen, merge_keys, List.length_flatten, List.map_map]
    have h2 := gSplit_length_sum allLags 0 total ht
    simp only [Function.comp_def, split_work_eq_gSplit]
    exact h2
  · intro i j hit hjt hij lag hmi hmj
    have hle : allLags.count lag ≤ 1 := List.nodup_iff_count_le_one.mp hnd lag
    have hci : 1 ≤ (split_work allLags i total).count lag :=
      List.count_pos_iff.mpr hmi
    have hcj : 1 ≤ (split_work allLags j total).count lag :=
      List.count_pos_iff.mpr hmj
    have hsum : (∑ m ∈ Finset.range total,
        (split_work allLags m total).count lag) = allLags.count lag := by
      simp only [split_work_eq_gSplit]
      exact gSplit_count_sum allLags 0 total ht lag
    have hpair : (split_work allLags i total).count lag +
        (split_work allLags j total).count lag ≤
        (∑ m ∈ Finset.range total, (split_work allLags m total).count lag) := by
      have hsub : ({i, j} : Finset ℕ) ⊆ Finset.range total := by
        intro m hm
        simp only [Finset.mem_insert, Finset.mem_singleton] at hm
        rcases hm with hm | hm <;> (subst hm; simp [Finset.mem_range]; omega)
      have hss := Finset.sum_le_sum_of_subset hsub
        (f := fun m => (split_work allLags m total).count lag)
      rwa [Finset.sum_pair hij] at hss
    omega

theorem claim_C8_witness :
    ([0, 3, 1, 4, 2, 5] : List Nat).Nodup ∧ 1 ≤ 2 ∧
      (((merge_partial_reports ((List.range 2).map
          (fun i => shardReport [0, 3, 1, 4, 2, 5] i 2
            (fun lag => lag)))).map Prod.fst).Nodup
      ∧ (∀ lag, lag ∈ (merge_partial_reports ((List.range 2).map
          (fun i => shardReport [0, 3, 1, 4, 2, 5] i 2
            (fun lag => lag)))).map Prod.fst ↔
            lag ∈ ([0, 3, 1, 4, 2, 5] : List Nat))
      ∧ (merge_partial_reports ((List.range 2).map
          (fun i => shardReport [0, 3, 1, 4, 2, 5] i 2
            (fun lag => lag)))).length =
          ([0, 3, 1, 4, 2, 5] : List Nat).length
      ∧ (∀ i j, i < 2 → j < 2 → i ≠ j → ∀ lag,
          lag ∈ split_work ([0, 3, 1, 4, 2, 5] : List Nat) i 2 →
            lag ∉ split_work ([0, 3, 1, 4, 2, 5] : List Nat) j 2)) :=
  ⟨by decide, by decide,
    claim_C8 (fun lag => lag) [0, 3, 1, 4, 2, 5] 2 (by decide) (by decide)⟩

